import Mathlib

/-!
Verification of the DocuScore evaluation pipeline's data model and
decision logic, shallowly embedded from the repository sources
(frontend dashboard types and components) and, for pipeline pieces whose
implementation is not part of the checked sources, modelled from the
specification's own wording (each such definition is marked
`Modelled from the spec:` in its doc comment).
-/

namespace DocuScore

-- ── Enumerated taxonomies (closed variants of the source's string unions) ──

/-- Severity tiers, from the `severity` union in `frontend/lib/utils.ts`. -/
inductive Severity where
  | critical
  | major
  | minor
deriving DecidableEq

/-- Hallucination taxonomy, from `hallucination_type` in `frontend/lib/utils.ts`. -/
inductive HallucinationType where
  | fabrication
  | negation
  | contextual
  | temporal
deriving DecidableEq

/-- Quality-gate decision, from the `decision` union in `frontend/lib/utils.ts`. -/
inductive GateDecision where
  | PASS
  | REVIEW
  | FAIL
deriving DecidableEq

-- ── Deterministic evaluation types (frontend/lib/utils.ts) ──

/-- SectionPresence, from `frontend/lib/utils.ts`. -/
structure SectionPresence where
  subjective : Bool
  objective : Bool
  assessment : Bool
  plan : Bool
deriving DecidableEq

/-- EntityGroundingResult, from `frontend/lib/utils.ts`. -/
structure EntityGroundingResult where
  entity : String
  found_in_transcript : Bool
  transcript_evidence : Option String
deriving DecidableEq

/-- ContradictionResult, from `frontend/lib/utils.ts`. -/
structure ContradictionResult where
  note_claim : String
  transcript_evidence : String
  description : String
deriving DecidableEq

/-- DeterministicResult, from `frontend/lib/utils.ts`; numeric scores are
embedded as rationals. -/
structure DeterministicResult where
  sections_present : SectionPresence
  section_completeness_score : ℚ
  entities_checked : List EntityGroundingResult
  entity_grounding_rate : ℚ
  contradictions : List ContradictionResult
deriving DecidableEq

-- ── LLM judge types (frontend/lib/utils.ts) ──

/-- SectionScore, from `frontend/lib/utils.ts`. -/
structure SectionScore where
  completeness : ℚ
  faithfulness : ℚ
  clinical_accuracy : ℚ
  reasoning : String
deriving DecidableEq

/-- Hallucination, from `frontend/lib/utils.ts`. -/
structure Hallucination where
  note_text : String
  hallucination_type : HallucinationType
  severity : Severity
  explanation : String
  transcript_context : String
deriving DecidableEq

/-- Omission, from `frontend/lib/utils.ts`. -/
structure Omission where
  transcript_text : String
  expected_section : String
  clinical_importance : Severity
  explanation : String
deriving DecidableEq

/-- LLMJudgeResult, from `frontend/lib/utils.ts`; the string-keyed record of
section scores is embedded as an association list. -/
structure LLMJudgeResult where
  section_scores : List (String × SectionScore)
  hallucinations : List Hallucination
  omissions : List Omission
  overall_quality : ℚ
  overall_reasoning : String
deriving DecidableEq

/-- QualityGateResult, from `frontend/lib/utils.ts`. -/
structure QualityGateResult where
  decision : GateDecision
  reasons : List String
deriving DecidableEq

/-- EvalReport, from `frontend/lib/utils.ts`. -/
structure EvalReport where
  note_id : String
  quality_gate : QualityGateResult
  overall_score : ℚ
  deterministic : DeterministicResult
  llm_judge : LLMJudgeResult
deriving DecidableEq

-- ── Deterministic-layer score computations ──

/-- Modelled from the spec: the entity-grounding aggregate rate is the number
of grounded entities over the number checked, defined as 1.0 when no entities
were checked so that no division by zero occurs (spec section 3, the
DeterministicResult invariant). -/
def groundingRate (entities : List EntityGroundingResult) : ℚ :=
  if entities.length = 0 then 1
  else (entities.countP (·.found_in_transcript) : ℚ) / (entities.length : ℚ)

/-- Number of canonical SOAP sections marked present. -/
def presentCount (p : SectionPresence) : ℕ :=
  (if p.subjective then 1 else 0) + (if p.objective then 1 else 0) +
    (if p.assessment then 1 else 0) + (if p.plan then 1 else 0)

/-- Modelled from the spec: the section completeness score is the fraction of
the four required sections present (spec section 3; no explicit weights are
given, so all four canonical sections weigh equally). -/
def sectionCompleteness (p : SectionPresence) : ℚ :=
  (presentCount p : ℚ) / 4

-- ── Quality gate (spec section 4.7) ──

/-- Count of hallucinations at a given severity. -/
def severityCount (j : LLMJudgeResult) (s : Severity) : ℕ :=
  j.hallucinations.countP (·.severity == s)

def criticalHallucinationReason : String := "Critical hallucination detected"

def missingSectionFailReason : String :=
  "Missing SOAP section content: completeness below 0.75"

def lowQualityFailReason : String := "Overall judge quality rating of 2 or below"

def manyMajorFailReason : String := "Three or more major hallucinations"

def majorHallucinationReviewReason : String := "Major hallucination present"

def lowGroundingReviewReason : String := "Entity grounding rate below 0.70"

def contradictionReviewReason : String := "Negation contradictions found"

def borderlineQualityReviewReason : String := "Borderline judge quality rating of 3"

def layerDiscrepancyReviewReason : String :=
  "Layer discrepancy: high grounding but 3 or more LLM-flagged hallucinations"

/-- Modelled from the spec: the ordered FAIL rule tier of the quality gate as
a list of (condition, reason) pairs (spec sections 4.7 and 9). -/
def failRules (d : DeterministicResult) (j : LLMJudgeResult) :
    List (Bool × String) :=
  [ (j.hallucinations.any (fun h => h.severity == Severity.critical),
      criticalHallucinationReason),
    (decide (d.section_completeness_score < 3/4), missingSectionFailReason),
    (decide (j.overall_quality ≤ 2), lowQualityFailReason),
    (decide (3 ≤ severityCount j Severity.major), manyMajorFailReason) ]

/-- Modelled from the spec: the ordered REVIEW rule tier of the quality gate
(spec sections 4.7 and 9). -/
def reviewRules (d : DeterministicResult) (j : LLMJudgeResult) :
    List (Bool × String) :=
  [ (j.hallucinations.any (fun h => h.severity == Severity.major),
      majorHallucinationReviewReason),
    (decide (d.entity_grounding_rate < 7/10), lowGroundingReviewReason),
    (!d.contradictions.isEmpty, contradictionReviewReason),
    (decide (j.overall_quality = 3), borderlineQualityReviewReason),
    (decide (85/100 < d.entity_grounding_rate ∧ 3 ≤ j.hallucinations.length),
      layerDiscrepancyReviewReason) ]

/-- Reasons of the rules whose condition triggered, in rule order. -/
def triggeredReasons (rules : List (Bool × String)) : List String :=
  rules.filterMap (fun r => if r.1 then some r.2 else none)

/-- Modelled from the spec: the quality gate evaluates the FAIL tier first,
then the REVIEW tier, then PASS by default; the first tier with any triggered
condition determines the decision and contributes the reasons of exactly its
triggered conditions (spec section 4.7). -/
def qualityGate (d : DeterministicResult) (j : LLMJudgeResult) :
    QualityGateResult :=
  let f := triggeredReasons (failRules d j)
  if f.isEmpty then
    let r := triggeredReasons (reviewRules d j)
    if r.isEmpty then ⟨GateDecision.PASS, []⟩
    else ⟨GateDecision.REVIEW, r⟩
  else ⟨GateDecision.FAIL, f⟩

-- ── Independent statements of the gate conditions, for characterization ──

/-- The FAIL-tier condition of spec section 4.7, stated directly as a
proposition. -/
def FailCond (d : DeterministicResult) (j : LLMJudgeResult) : Prop :=
  (∃ h ∈ j.hallucinations, h.severity = Severity.critical) ∨
    d.section_completeness_score < 3/4 ∨
    j.overall_quality ≤ 2 ∨
    3 ≤ severityCount j Severity.major

/-- The REVIEW-tier condition of spec section 4.7, stated directly as a
proposition. -/
def ReviewCond (d : DeterministicResult) (j : LLMJudgeResult) : Prop :=
  (∃ h ∈ j.hallucinations, h.severity = Severity.major) ∨
    d.entity_grounding_rate < 7/10 ∨
    d.contradictions ≠ [] ∨
    j.overall_quality = 3 ∨
    (85/100 < d.entity_grounding_rate ∧ 3 ≤ j.hallucinations.length)

-- ── Helper lemmas about triggered rule reasons ──

theorem triggeredReasons_isEmpty_iff (rules : List (Bool × String)) :
    (triggeredReasons rules).isEmpty = true ↔ ∀ r ∈ rules, r.1 = false := by
  induction rules with
  | nil => simp [triggeredReasons]
  | cons r rs ih =>
    cases hr : r.1
    · simp [triggeredReasons, List.filterMap_cons, hr] at ih ⊢
    · simp [triggeredReasons, List.filterMap_cons, hr]

theorem mem_triggeredReasons (rules : List (Bool × String)) (s : String) :
    s ∈ triggeredReasons rules ↔ (true, s) ∈ rules := by
  simp only [triggeredReasons, List.mem_filterMap, Option.ite_none_right_eq_some,
    Option.some.injEq]
  constructor
  · rintro ⟨r, hmem, h1, h2⟩
    have : r = (true, s) := by
      cases r; simp_all
    simpa [this] using hmem
  · intro h
    exact ⟨(true, s), h, rfl, rfl⟩

theorem length_triggeredReasons (rules : List (Bool × String)) :
    (triggeredReasons rules).length = rules.countP (fun r => r.1) := by
  induction rules with
  | nil => simp [triggeredReasons]
  | cons r rs ih =>
    cases hr : r.1 <;> simp [triggeredReasons, List.filterMap_cons, hr] <;>
      simpa [triggeredReasons] using ih

theorem failCond_iff_not_isEmpty (d : DeterministicResult) (j : LLMJudgeResult) :
    FailCond d j ↔ (triggeredReasons (failRules d j)).isEmpty = false := by
  rw [Bool.eq_false_iff, Ne, triggeredReasons_isEmpty_iff]
  simp only [failRules, List.mem_cons, List.not_mem_nil, FailCond]
  constructor
  · rintro (⟨h, hm, hs⟩ | hc | hc | hc) hall
    · have := hall (j.hallucinations.any (fun h => h.severity == Severity.critical),
        criticalHallucinationReason) (Or.inl rfl)
      simp only [List.any_eq_false] at this
      exact absurd (by simpa using hs) (by simpa using this h hm)
    · have := hall (decide (d.section_completeness_score < 3/4),
        missingSectionFailReason) (Or.inr (Or.inl rfl))
      simp only [decide_eq_false_iff_not] at this
      exact this hc
    · have := hall (decide (j.overall_quality ≤ 2), lowQualityFailReason)
        (Or.inr (Or.inr (Or.inl rfl)))
      simp only [decide_eq_false_iff_not] at this
      exact this hc
    · have := hall (decide (3 ≤ severityCount j Severity.major), manyMajorFailReason)
        (Or.inr (Or.inr (Or.inr (Or.inl rfl))))
      simp only [decide_eq_false_iff_not] at this
      exact this hc
  · intro hne
    by_contra hnone
    push_neg at hnone
    obtain ⟨h1, h2, h3, h4⟩ := hnone
    apply hne
    rintro r (rfl | rfl | rfl | rfl | hfalse)
    · simp only [List.any_eq_false]
      intro h hm
      simpa using fun hs => h1 h hm (by simpa using hs)
    · simpa using h2
    · simpa using h3
    · simpa using h4
    · simp at hfalse

theorem reviewCond_iff_not_isEmpty (d : DeterministicResult) (j : LLMJudgeResult) :
    ReviewCond d j ↔ (triggeredReasons (reviewRules d j)).isEmpty = false := by
  rw [Bool.eq_false_iff, Ne, triggeredReasons_isEmpty_iff]
  simp only [reviewRules, List.mem_cons, List.not_mem_nil, ReviewCond]
  constructor
  · rintro (⟨h, hm, hs⟩ | hc | hc | hc | hc) hall
    · have := hall (j.hallucinations.any (fun h => h.severity == Severity.major),
        majorHallucinationReviewReason) (Or.inl rfl)
      simp only [List.any_eq_false] at this
      exact absurd (by simpa using hs) (by simpa using this h hm)
    · have := hall (decide (d.entity_grounding_rate < 7/10),
        lowGroundingReviewReason) (Or.inr (Or.inl rfl))
      simp only [decide_eq_false_iff_not] at this
      exact this hc
    · have := hall (!d.contradictions.isEmpty, contradictionReviewReason)
        (Or.inr (Or.inr (Or.inl rfl)))
      simp only [Bool.not_eq_false', List.isEmpty_iff] at this
      exact hc this
    · have := hall (decide (j.overall_quality = 3), borderlineQualityReviewReason)
        (Or.inr (Or.inr (Or.inr (Or.inl rfl))))
      simp only [decide_eq_false_iff_not] at this
      exact this hc
    · have := hall
        (decide (85/100 < d.entity_grounding_rate ∧ 3 ≤ j.hallucinations.length),
          layerDiscrepancyReviewReason) (Or.inr (Or.inr (Or.inr (Or.inr (Or.inl rfl)))))
      simp only [decide_eq_false_iff_not] at this
      exact this hc
  · intro hne
    by_contra hnone
    push_neg at hnone
    obtain ⟨h1, h2, h3, h4, h5⟩ := hnone
    apply hne
    rintro r (rfl | rfl | rfl | rfl | rfl | hfalse)
    · simp only [List.any_eq_false]
      intro h hm
      simpa using fun hs => h1 h hm (by simpa using hs)
    · simpa using h2
    · simpa [List.isEmpty_iff] using h3
    · simpa using h4
    · simpa using h5
    · simp at hfalse

instance (d : DeterministicResult) (j : LLMJudgeResult) :
    Decidable (FailCond d j) := by
  unfold FailCond; infer_instance

instance (d : DeterministicResult) (j : LLMJudgeResult) :
    Decidable (ReviewCond d j) := by
  unfold ReviewCond; infer_instance

/-- Full characterization of the quality gate: tier priority, decision, and
reason retention. -/
theorem qualityGate_spec (d : DeterministicResult) (j : LLMJudgeResult) :
    (((qualityGate d j).decision = GateDecision.FAIL) ↔ FailCond d j)
    ∧ (((qualityGate d j).decision = GateDecision.REVIEW) ↔
        (¬ FailCond d j ∧ ReviewCond d j))
    ∧ (((qualityGate d j).decision = GateDecision.PASS) ↔
        (¬ FailCond d j ∧ ¬ ReviewCond d j))
    ∧ ((qualityGate d j).reasons.length =
        if FailCond d j then (failRules d j).countP (fun r => r.1)
        else if ReviewCond d j then (reviewRules d j).countP (fun r => r.1)
        else 0)
    ∧ (∀ s : String, s ∈ (qualityGate d j).reasons ↔
        ((FailCond d j ∧ (true, s) ∈ failRules d j) ∨
          (¬ FailCond d j ∧ ReviewCond d j ∧ (true, s) ∈ reviewRules d j))) := by
  by_cases hF : FailCond d j
  · have hf := (failCond_iff_not_isEmpty d j).mp hF
    refine ⟨?_, ?_, ?_, ?_, ?_⟩ <;>
      simp [qualityGate, hf, hF, length_triggeredReasons, mem_triggeredReasons]
  · have hf : (triggeredReasons (failRules d j)).isEmpty = true := by
      have := (failCond_iff_not_isEmpty d j).not.mp hF
      simpa using this
    by_cases hR : ReviewCond d j
    · have hr := (reviewCond_iff_not_isEmpty d j).mp hR
      refine ⟨?_, ?_, ?_, ?_, ?_⟩ <;>
        simp [qualityGate, hf, hr, hF, hR, length_triggeredReasons,
          mem_triggeredReasons]
    · have hr : (triggeredReasons (reviewRules d j)).isEmpty = true := by
        have := (reviewCond_iff_not_isEmpty d j).not.mp hR
        simpa using this
      refine ⟨?_, ?_, ?_, ?_, ?_⟩ <;>
        simp [qualityGate, hf, hr, hF, hR]

/-- C1: the quality gate evaluates its rule table in fixed priority order —
the decision is FAIL exactly when some FAIL condition holds, REVIEW exactly
when no FAIL condition but some REVIEW condition holds, and PASS otherwise;
the reason list has exactly one entry per triggered condition of the deciding
tier, and a reason string is in the list exactly when its condition
triggered in that tier, so all co-triggered reasons are retained. -/
theorem C1_quality_gate_priority_and_reasons
    (d : DeterministicResult) (j : LLMJudgeResult) :
    (((qualityGate d j).decision = GateDecision.FAIL) ↔ FailCond d j)
    ∧ (((qualityGate d j).decision = GateDecision.REVIEW) ↔
        (¬ FailCond d j ∧ ReviewCond d j))
    ∧ (((qualityGate d j).decision = GateDecision.PASS) ↔
        (¬ FailCond d j ∧ ¬ ReviewCond d j))
    ∧ ((qualityGate d j).reasons.length =
        if FailCond d j then (failRules d j).countP (fun r => r.1)
        else if ReviewCond d j then (reviewRules d j).countP (fun r => r.1)
        else 0)
    ∧ (∀ s : String, s ∈ (qualityGate d j).reasons ↔
        ((FailCond d j ∧ (true, s) ∈ failRules d j) ∨
          (¬ FailCond d j ∧ ReviewCond d j ∧ (true, s) ∈ reviewRules d j))) :=
  qualityGate_spec d j

/-- C2: for every well-formed DeterministicResult, the entity grounding rate
is the number of grounded entities divided by the number checked, and it is
1.0 when no entities were checked, so no division by zero occurs. -/
theorem C2_entity_grounding_rate_invariant
    (d : DeterministicResult)
    (hwf : d.entity_grounding_rate = groundingRate d.entities_checked) :
    (d.entities_checked.length ≠ 0 →
      d.entity_grounding_rate =
        (d.entities_checked.countP (·.found_in_transcript) : ℚ) /
          (d.entities_checked.length : ℚ))
    ∧ (d.entities_checked.length = 0 → d.entity_grounding_rate = 1) := by
  constructor <;> intro h <;> simp [hwf, groundingRate, h]

/-- A grounded entity paired with its transcript evidence. -/
def groundedEntity (name : String) : EntityGroundingResult :=
  ⟨name, true, some name⟩

/-- An ungrounded entity: not found in the transcript. -/
def ungroundedEntity (name : String) : EntityGroundingResult :=
  ⟨name, false, none⟩

/-- Concrete deterministic result: all sections present, 9 of 10 entities
grounded (rate 0.90), no contradictions. -/
def dHighGrounding : DeterministicResult :=
  { sections_present := ⟨true, true, true, true⟩
    section_completeness_score := 1
    entities_checked :=
      List.replicate 9 (groundedEntity "finding") ++ [ungroundedEntity "x"]
    entity_grounding_rate := 9/10
    contradictions := [] }

/-- Concrete two-entity deterministic result with one entity grounded. -/
def dHalfGrounded : DeterministicResult :=
  { sections_present := ⟨true, true, true, true⟩
    section_completeness_score := 1
    entities_checked := [groundedEntity "hypertension", ungroundedEntity "metformin"]
    entity_grounding_rate := 1/2
    contradictions := [] }

/-- The half-grounded sample satisfies the grounding-rate invariant. -/
theorem dHalfGrounded_wf :
    dHalfGrounded.entity_grounding_rate = groundingRate dHalfGrounded.entities_checked := by
  have hc : dHalfGrounded.entities_checked.countP (·.found_in_transcript) = 1 := by
    decide
  have hl : dHalfGrounded.entities_checked.length = 2 := by decide
  rw [groundingRate, hc, hl]
  norm_num [dHalfGrounded]

theorem C2_entity_grounding_rate_invariant_witness :
    (dHalfGrounded.entity_grounding_rate = groundingRate dHalfGrounded.entities_checked)
    ∧ ((dHalfGrounded.entities_checked.length ≠ 0 →
        dHalfGrounded.entity_grounding_rate =
          (dHalfGrounded.entities_checked.countP (·.found_in_transcript) : ℚ) /
            (dHalfGrounded.entities_checked.length : ℚ))
      ∧ (dHalfGrounded.entities_checked.length = 0 →
          dHalfGrounded.entity_grounding_rate = 1)) :=
  ⟨dHalfGrounded_wf, C2_entity_grounding_rate_invariant dHalfGrounded dHalfGrounded_wf⟩

/-- A major-severity contextual hallucination. -/
def majorContextualHallucination : Hallucination :=
  ⟨"poorly controlled", HallucinationType.contextual, Severity.major,
    "degree distorted", "well controlled"⟩

/-- A minor-severity contextual hallucination. -/
def minorContextualHallucination : Hallucination :=
  ⟨"slightly elevated", HallucinationType.contextual, Severity.minor,
    "degree distorted", "mildly elevated"⟩

/-- Judge result reporting exactly 4 major-severity hallucinations with an
otherwise good rating. -/
def jFourMajor : LLMJudgeResult :=
  { section_scores := [("subjective", ⟨4, 4, 4, "adequate"⟩)]
    hallucinations := List.replicate 4 majorContextualHallucination
    omissions := []
    overall_quality := 4
    overall_reasoning := "mostly accurate" }

/-- Judge result reporting exactly 4 minor-severity hallucinations with an
otherwise good rating. -/
def jFourMinor : LLMJudgeResult :=
  { section_scores := [("subjective", ⟨4, 4, 4, "adequate"⟩)]
    hallucinations := List.replicate 4 minorContextualHallucination
    omissions := []
    overall_quality := 4
    overall_reasoning := "mostly accurate" }

/-- C3 counterexample: at grounding rate 0.90, zero contradictions and 4
major hallucinations, the gate decision is FAIL (the FAIL tier's rule for 3
or more major hallucinations fires first), not REVIEW as the claim states. -/
theorem C3_counterexample :
    dHighGrounding.entity_grounding_rate = groundingRate dHighGrounding.entities_checked
    ∧ dHighGrounding.entity_grounding_rate = 9/10
    ∧ dHighGrounding.contradictions = []
    ∧ severityCount jFourMajor Severity.major = 4
    ∧ (qualityGate dHighGrounding jFourMajor).decision = GateDecision.FAIL
    ∧ ¬ (qualityGate dHighGrounding jFourMajor).decision = GateDecision.REVIEW := by
  obtain ⟨hFAIL, _, _, _, _⟩ := qualityGate_spec dHighGrounding jFourMajor
  have hfc : FailCond dHighGrounding jFourMajor :=
    Or.inr (Or.inr (Or.inr (by decide)))
  have hdec := hFAIL.mpr hfc
  have hwf : dHighGrounding.entity_grounding_rate =
      groundingRate dHighGrounding.entities_checked := by
    have hc : dHighGrounding.entities_checked.countP (·.found_in_transcript) = 9 := by
      decide
    have hl : dHighGrounding.entities_checked.length = 10 := by decide
    rw [groundingRate, hc, hl]
    norm_num [dHighGrounding]
  exact ⟨hwf, rfl, rfl, by decide, hdec, by simp [hdec]⟩

/-- C3 amended: with grounding 0.90, no contradictions and 4 major
hallucinations, the layer-discrepancy condition does hold, but the ≥3-major
FAIL rule takes priority and the decision is FAIL with that reason; the
layer-discrepancy REVIEW rule determines the decision when the 4
hallucinations are minor severity instead. -/
theorem C3_amended_fail_tier_shadows_layer_discrepancy :
    (85/100 < dHighGrounding.entity_grounding_rate
      ∧ 3 ≤ jFourMajor.hallucinations.length)
    ∧ (qualityGate dHighGrounding jFourMajor).decision = GateDecision.FAIL
    ∧ manyMajorFailReason ∈ (qualityGate dHighGrounding jFourMajor).reasons
    ∧ (qualityGate dHighGrounding jFourMinor).decision = GateDecision.REVIEW
    ∧ layerDiscrepancyReviewReason ∈ (qualityGate dHighGrounding jFourMinor).reasons := by
  obtain ⟨hFAIL, _, _, _, hmemF⟩ := qualityGate_spec dHighGrounding jFourMajor
  obtain ⟨_, hREV, _, _, hmemR⟩ := qualityGate_spec dHighGrounding jFourMinor
  have hfc : FailCond dHighGrounding jFourMajor :=
    Or.inr (Or.inr (Or.inr (by decide)))
  have hnotfail : ¬ FailCond dHighGrounding jFourMinor := by
    rintro (⟨h, hm, hs⟩ | hc | hc | hc)
    · simp [jFourMinor, List.mem_replicate] at hm
      subst hm
      simp [minorContextualHallucination] at hs
    · norm_num [dHighGrounding] at hc
    · norm_num [jFourMinor] at hc
    · exact absurd hc (by decide)
  have hgr : (85 : ℚ)/100 < dHighGrounding.entity_grounding_rate := by
    norm_num [dHighGrounding]
  have hrev : ReviewCond dHighGrounding jFourMinor :=
    Or.inr (Or.inr (Or.inr (Or.inr ⟨hgr, by decide⟩)))
  have hmajmem : ((true : Bool), manyMajorFailReason) ∈ failRules dHighGrounding jFourMajor := by
    have hb : decide (3 ≤ severityCount jFourMajor Severity.major) = true := by decide
    simp [failRules, hb]
  have hlayermem : ((true : Bool), layerDiscrepancyReviewReason) ∈
      reviewRules dHighGrounding jFourMinor := by
    have hb : decide ((85 : ℚ)/100 < dHighGrounding.entity_grounding_rate ∧
        3 ≤ jFourMinor.hallucinations.length) = true :=
      decide_eq_true ⟨hgr, by decide⟩
    simp [reviewRules, hb]
  refine ⟨⟨hgr, by decide⟩, hFAIL.mpr hfc, ?_, hREV.mpr ⟨hnotfail, hrev⟩, ?_⟩
  · exact (hmemF manyMajorFailReason).mpr (Or.inl ⟨hfc, hmajmem⟩)
  · exact (hmemR layerDiscrepancyReviewReason).mpr (Or.inr ⟨hnotfail, hrev, hlayermem⟩)

/-- Concrete deterministic result for a note missing only the plan
section: the other three sections present, perfect grounding and no
contradictions, with the completeness score computed by the section
checker model. -/
def dPlanMissing : DeterministicResult :=
  { sections_present := ⟨true, true, true, false⟩
    section_completeness_score := sectionCompleteness ⟨true, true, true, false⟩
    entities_checked := [groundedEntity "amoxicillin"]
    entity_grounding_rate := 1
    contradictions := [] }

/-- Judge result for an otherwise clean note: no hallucinations, no
omissions, top quality rating. -/
def jClean : LLMJudgeResult :=
  { section_scores :=
      [("subjective", ⟨5, 5, 5, "complete"⟩), ("objective", ⟨5, 5, 5, "complete"⟩),
        ("assessment", ⟨5, 5, 5, "complete"⟩)]
    hallucinations := []
    omissions := []
    overall_quality := 5
    overall_reasoning := "accurate and complete" }

/-- The completeness score of a note missing only the plan section is
exactly 3/4. -/
theorem sectionCompleteness_plan_missing :
    sectionCompleteness ⟨true, true, true, false⟩ = 3/4 := by
  rw [sectionCompleteness]
  norm_num [presentCount]

/-- C4 counterexample: a note missing only the plan section and otherwise
clean has completeness exactly 0.75, which satisfies the claimed bound
`≤ 0.75` but not the gate's strict FAIL threshold `< 0.75`, so the gate
decision is PASS, not FAIL. -/
theorem C4_counterexample :
    dPlanMissing.sections_present.plan = false
    ∧ dPlanMissing.section_completeness_score = 3/4
    ∧ dPlanMissing.section_completeness_score ≤ 3/4
    ∧ jClean.hallucinations = []
    ∧ dPlanMissing.contradictions = []
    ∧ (qualityGate dPlanMissing jClean).decision = GateDecision.PASS
    ∧ ¬ (qualityGate dPlanMissing jClean).decision = GateDecision.FAIL := by
  obtain ⟨_, _, hPASS, _, _⟩ := qualityGate_spec dPlanMissing jClean
  have hcomp : dPlanMissing.section_completeness_score = 3/4 :=
    sectionCompleteness_plan_missing
  have hnotfail : ¬ FailCond dPlanMissing jClean := by
    rintro (⟨h, hm, _⟩ | hc | hc | hc)
    · simp [jClean] at hm
    · rw [hcomp] at hc
      norm_num at hc
    · norm_num [jClean] at hc
    · exact absurd hc (by decide)
  have hnotreview : ¬ ReviewCond dPlanMissing jClean := by
    rintro (⟨h, hm, _⟩ | hc | hc | hc | ⟨_, hc⟩)
    · simp [jClean] at hm
    · norm_num [dPlanMissing] at hc
    · simp [dPlanMissing] at hc
    · norm_num [jClean] at hc
    · simp [jClean] at hc
  have hdec := hPASS.mpr ⟨hnotfail, hnotreview⟩
  exact ⟨rfl, hcomp, le_of_eq hcomp, rfl, rfl, hdec, by simp [hdec]⟩

/-- C4 amended: for every note whose plan section is missing, with a
well-formed completeness score, no hallucinations and a judge rating above
2, the completeness score is at most 0.75; but the gate decision is FAIL —
equivalently, the missing-section FAIL reason appears — exactly when the
completeness score is strictly below 0.75, which a note missing only the
plan section (score exactly 0.75) does not satisfy. -/
theorem C4_amended_fail_requires_strict_threshold
    (d : DeterministicResult) (j : LLMJudgeResult)
    (hplan : d.sections_present.plan = false)
    (hwf : d.section_completeness_score = sectionCompleteness d.sections_present)
    (hnohall : j.hallucinations = [])
    (hq : 2 < j.overall_quality) :
    d.section_completeness_score ≤ 3/4
    ∧ ((qualityGate d j).decision = GateDecision.FAIL ↔
        d.section_completeness_score < 3/4)
    ∧ (missingSectionFailReason ∈ (qualityGate d j).reasons ↔
        d.section_completeness_score < 3/4) := by
  obtain ⟨hFAIL, _, _, _, hmem⟩ := qualityGate_spec d j
  have hfc : FailCond d j ↔ d.section_completeness_score < 3/4 := by
    constructor
    · rintro (⟨h, hm, _⟩ | hc | hc | hc)
      · rw [hnohall] at hm
        simp at hm
      · exact hc
      · exact absurd hc (not_le.mpr hq)
      · rw [severityCount, hnohall] at hc
        simp at hc
    · intro hc
      exact Or.inr (Or.inl hc)
  have hbound : d.section_completeness_score ≤ 3/4 := by
    rw [hwf, sectionCompleteness]
    have hle : presentCount d.sections_present ≤ 3 := by
      unfold presentCount
      rw [hplan]
      cases d.sections_present.subjective <;> cases d.sections_present.objective <;>
        cases d.sections_present.assessment <;> simp
    have : (presentCount d.sections_present : ℚ) ≤ 3 := by
      exact_mod_cast hle
    linarith
  refine ⟨hbound, hFAIL.trans hfc, ?_⟩
  rw [hmem missingSectionFailReason]
  constructor
  · rintro (⟨hf, _⟩ | ⟨_, _, hr⟩)
    · exact hfc.mp hf
    · simp only [reviewRules, List.mem_cons, List.not_mem_nil, or_false,
        Prod.mk.injEq] at hr
      rcases hr with ⟨_, h⟩ | ⟨_, h⟩ | ⟨_, h⟩ | ⟨_, h⟩ | ⟨_, h⟩ <;>
        simp [missingSectionFailReason, majorHallucinationReviewReason,
          lowGroundingReviewReason, contradictionReviewReason,
          borderlineQualityReviewReason, layerDiscrepancyReviewReason] at h
  · intro hc
    refine Or.inl ⟨hfc.mpr hc, ?_⟩
    have hb : decide (d.section_completeness_score < 3/4) = true :=
      decide_eq_true hc
    simp [failRules, hb]

theorem C4_amended_fail_requires_strict_threshold_witness :
    (dPlanMissing.sections_present.plan = false
      ∧ dPlanMissing.section_completeness_score =
          sectionCompleteness dPlanMissing.sections_present
      ∧ jClean.hallucinations = []
      ∧ (2 : ℚ) < jClean.overall_quality)
    ∧ (dPlanMissing.section_completeness_score ≤ 3/4
      ∧ ((qualityGate dPlanMissing jClean).decision = GateDecision.FAIL ↔
          dPlanMissing.section_completeness_score < 3/4)
      ∧ (missingSectionFailReason ∈ (qualityGate dPlanMissing jClean).reasons ↔
          dPlanMissing.section_completeness_score < 3/4)) :=
  ⟨⟨rfl, rfl, rfl, by norm_num [jClean]⟩,
    C4_amended_fail_requires_strict_threshold dPlanMissing jClean rfl rfl rfl
      (by norm_num [jClean])⟩

-- ── Score aggregator (spec section 4.6) and dashboard score buckets ──

/-- Clamp a rational to the closed unit interval. -/
def clamp01 (x : ℚ) : ℚ := max 0 (min 1 x)

/-- Modelled from the spec: the hallucination penalty is
min(1.0, 0.30·n_critical + 0.15·n_major + 0.05·n_minor) (spec section 4.6). -/
def hallucinationPenalty (j : LLMJudgeResult) : ℚ :=
  min 1 (3/10 * severityCount j Severity.critical
    + 15/100 * severityCount j Severity.major
    + 5/100 * severityCount j Severity.minor)

/-- Modelled from the spec: the average 1..5 section rating across the three
rating axes of every judged section, taken as 0 when the judge scored no
sections (spec section 4.6). -/
def avgSectionRating (j : LLMJudgeResult) : ℚ :=
  if j.section_scores.length = 0 then 0
  else (j.section_scores.map
      (fun p => p.2.completeness + p.2.faithfulness + p.2.clinical_accuracy)).sum
    / (3 * j.section_scores.length)

/-- Modelled from the spec: the overall score is the fixed weighted
combination 0.15·completeness + 0.15·grounding + 0.50·normalized average
section rating + 0.20·(1 − hallucination penalty), clamped to the unit
interval (spec section 4.6). -/
def overallScore (d : DeterministicResult) (j : LLMJudgeResult) : ℚ :=
  clamp01 (15/100 * d.section_completeness_score
    + 15/100 * d.entity_grounding_rate
    + 50/100 * ((avgSectionRating j - 1) / 4)
    + 20/100 * (1 - hallucinationPenalty j))

/-- The five score buckets of the ScoreDistribution dashboard component. -/
def scoreBuckets : List (ℚ × ℚ) :=
  [(0, 2/10), (2/10, 4/10), (4/10, 6/10), (6/10, 8/10), (8/10, 101/100)]

/-- Bucket membership as filtered by ScoreDistribution:
bucket min ≤ score < bucket max. -/
def inBucket (x : ℚ) (b : ℚ × ℚ) : Bool := decide (b.1 ≤ x ∧ x < b.2)

/-- Every rational in the unit interval lies in exactly one dashboard score
bucket. -/
theorem countP_scoreBuckets_eq_one (x : ℚ) (h0 : 0 ≤ x) (h1 : x ≤ 1) :
    scoreBuckets.countP (inBucket x) = 1 := by
  simp only [scoreBuckets, List.countP_cons, List.countP_nil, inBucket,
    decide_eq_true_eq]
  rcases lt_or_le x (2/10) with hA | hA
  · have e2 : ¬((2:ℚ)/10 ≤ x ∧ x < 4/10) := fun h => absurd h.1 (not_le.mpr hA)
    have e3 : ¬((4:ℚ)/10 ≤ x ∧ x < 6/10) := fun h =>
      absurd (le_trans (by norm_num) h.1) (not_le.mpr hA)
    have e4 : ¬((6:ℚ)/10 ≤ x ∧ x < 8/10) := fun h =>
      absurd (le_trans (by norm_num) h.1) (not_le.mpr hA)
    have e5 : ¬((8:ℚ)/10 ≤ x ∧ x < 101/100) := fun h =>
      absurd (le_trans (by norm_num) h.1) (not_le.mpr hA)
    simp [h0, hA, e2, e3, e4, e5]
  · rcases lt_or_le x (4/10) with hB | hB
    · have e1 : ¬(0 ≤ x ∧ x < 2/10) := fun h => absurd h.2 (not_lt.mpr hA)
      have e3 : ¬((4:ℚ)/10 ≤ x ∧ x < 6/10) := fun h => absurd h.1 (not_le.mpr hB)
      have e4 : ¬((6:ℚ)/10 ≤ x ∧ x < 8/10) := fun h =>
        absurd (le_trans (by norm_num) h.1) (not_le.mpr hB)
      have e5 : ¬((8:ℚ)/10 ≤ x ∧ x < 101/100) := fun h =>
        absurd (le_trans (by norm_num) h.1) (not_le.mpr hB)
      simp [hA, hB, e1, e3, e4, e5]
    · rcases lt_or_le x (6/10) with hC | hC
      · have e1 : ¬(0 ≤ x ∧ x < 2/10) := fun h =>
          absurd h.2 (not_lt.mpr (le_trans (by norm_num) hB))
        have e2 : ¬((2:ℚ)/10 ≤ x ∧ x < 4/10) := fun h =>
          absurd h.2 (not_lt.mpr hB)
        have e4 : ¬((6:ℚ)/10 ≤ x ∧ x < 8/10) := fun h => absurd h.1 (not_le.mpr hC)
        have e5 : ¬((8:ℚ)/10 ≤ x ∧ x < 101/100) := fun h =>
          absurd (le_trans (by norm_num) h.1) (not_le.mpr hC)
        simp [hB, hC, e1, e2, e4, e5]
      · rcases lt_or_le x (8/10) with hD | hD
        · have e1 : ¬(0 ≤ x ∧ x < 2/10) := fun h =>
            absurd h.2 (not_lt.mpr (le_trans (by norm_num) hC))
          have e2 : ¬((2:ℚ)/10 ≤ x ∧ x < 4/10) := fun h =>
            absurd h.2 (not_lt.mpr (le_trans (by norm_num) hC))
          have e3 : ¬((4:ℚ)/10 ≤ x ∧ x < 6/10) := fun h =>
            absurd h.2 (not_lt.mpr hC)
          have e5 : ¬((8:ℚ)/10 ≤ x ∧ x < 101/100) := fun h =>
            absurd h.1 (not_le.mpr hD)
          simp [hC, hD, e1, e2, e3, e5]
        · have e1 : ¬(0 ≤ x ∧ x < 2/10) := fun h =>
            absurd h.2 (not_lt.mpr (le_trans (by norm_num) hD))
          have e2 : ¬((2:ℚ)/10 ≤ x ∧ x < 4/10) := fun h =>
            absurd h.2 (not_lt.mpr (le_trans (by norm_num) hD))
          have e3 : ¬((4:ℚ)/10 ≤ x ∧ x < 6/10) := fun h =>
            absurd h.2 (not_lt.mpr (le_trans (by norm_num) hD))
          have e4 : ¬((6:ℚ)/10 ≤ x ∧ x < 8/10) := fun h =>
            absurd h.2 (not_lt.mpr hD)
          have hE : x < 101/100 := lt_of_le_of_lt h1 (by norm_num)
          simp [hD, hE, e1, e2, e3, e4]

/-- The grounding rate always lies in the closed unit interval. -/
theorem groundingRate_mem_unit (entities : List EntityGroundingResult) :
    0 ≤ groundingRate entities ∧ groundingRate entities ≤ 1 := by
  rw [groundingRate]
  split
  · norm_num
  · rename_i h
    have hlen : 0 < (entities.length : ℚ) := by
      have : 0 < entities.length := Nat.pos_of_ne_zero h
      exact_mod_cast this
    constructor
    · exact div_nonneg (by positivity) (le_of_lt hlen)
    · rw [div_le_one hlen]
      exact_mod_cast List.countP_le_length _

/-- Clamping always lands in the closed unit interval. -/
theorem clamp01_mem_unit (x : ℚ) : 0 ≤ clamp01 x ∧ clamp01 x ≤ 1 :=
  ⟨le_max_left 0 _, max_le (by norm_num) (min_le_left 1 x)⟩

/-- C5: the aggregated overall score is clamped into [0,1], the entity
grounding rate lies in [0,1], and consequently every report's overall score
falls into exactly one of the dashboard's five score buckets. -/
theorem C5_overall_score_and_bucket_uniqueness
    (entities : List EntityGroundingResult)
    (d : DeterministicResult) (j : LLMJudgeResult) :
    (0 ≤ groundingRate entities ∧ groundingRate entities ≤ 1)
    ∧ (0 ≤ overallScore d j ∧ overallScore d j ≤ 1)
    ∧ scoreBuckets.countP (inBucket (overallScore d j)) = 1 := by
  have hsc : 0 ≤ overallScore d j ∧ overallScore d j ≤ 1 := by
    unfold overallScore
    exact clamp01_mem_unit _
  exact ⟨groundingRate_mem_unit entities, hsc,
    countP_scoreBuckets_eq_one _ hsc.1 hsc.2⟩

-- ── Meta-evaluation aggregate (spec sections 3 and 4.8) ──

/-- Kind of a synthetic meta-evaluation case. -/
inductive MetaCaseKind where
  | errorCase
  | cleanControl
deriving DecidableEq

/-- Outcome of running one synthetic case through the pipeline:
`correctly_handled` is a true positive for an error case and a true
negative (no false alarm) for a clean control. -/
structure MetaCaseOutcome where
  kind : MetaCaseKind
  correctly_handled : Bool
deriving DecidableEq

/-- MetaEvalResult, from `frontend/lib/utils.ts`. -/
structure MetaEvalResult where
  injected_error_detection_rate : ℚ
  injected_errors_total : ℕ
  injected_errors_caught : ℕ
  details : List String
deriving DecidableEq

/-- Modelled from the spec: the meta-evaluation aggregate filling the
source's MetaEvalResult shape — total synthetic cases, count correctly
flagged (true positives for error cases, true negatives for clean cases),
and the single derived detection rate caught/total (spec section 3), with a
per-case detail line. -/
def metaEvalAggregate (cases : List MetaCaseOutcome) : MetaEvalResult :=
  { injected_errors_total := cases.length
    injected_errors_caught := cases.countP (·.correctly_handled)
    injected_error_detection_rate :=
      if cases.length = 0 then 0
      else (cases.countP (·.correctly_handled) : ℚ) / (cases.length : ℚ)
    details :=
      cases.map (fun c => if c.correctly_handled then "handled" else "missed") }

/-- Number of injected-error cases. -/
def errorCaseCount (cases : List MetaCaseOutcome) : ℕ :=
  cases.countP (·.kind == MetaCaseKind.errorCase)

/-- Number of clean-control cases. -/
def cleanCaseCount (cases : List MetaCaseOutcome) : ℕ :=
  cases.countP (·.kind == MetaCaseKind.cleanControl)

/-- True positives: injected-error cases whose error was caught. -/
def truePositiveCount (cases : List MetaCaseOutcome) : ℕ :=
  cases.countP (fun c => c.kind == MetaCaseKind.errorCase && c.correctly_handled)

/-- True negatives: clean controls that were correctly not flagged. -/
def trueNegativeCount (cases : List MetaCaseOutcome) : ℕ :=
  cases.countP (fun c => c.kind == MetaCaseKind.cleanControl && c.correctly_handled)

/-- Sensitivity: recall on the injected-error cases alone. -/
def sensitivity (cases : List MetaCaseOutcome) : ℚ :=
  if errorCaseCount cases = 0 then 1
  else (truePositiveCount cases : ℚ) / (errorCaseCount cases : ℚ)

/-- Specificity: correct-rejection rate on the clean controls alone. -/
def specificity (cases : List MetaCaseOutcome) : ℚ :=
  if cleanCaseCount cases = 0 then 1
  else (trueNegativeCount cases : ℚ) / (cleanCaseCount cases : ℚ)

/-- A run that catches every injected error but falsely flags every clean
control: sensitivity 1, specificity 0. -/
def overFlaggingRun : List MetaCaseOutcome :=
  List.replicate 6 ⟨MetaCaseKind.errorCase, true⟩ ++
    List.replicate 3 ⟨MetaCaseKind.cleanControl, false⟩

/-- A run that misses half the injected errors but handles every clean
control: sensitivity 1/2, specificity 1. -/
def underFlaggingRun : List MetaCaseOutcome :=
  List.replicate 3 ⟨MetaCaseKind.errorCase, true⟩ ++
    List.replicate 3 ⟨MetaCaseKind.errorCase, false⟩ ++
    List.replicate 3 ⟨MetaCaseKind.cleanControl, true⟩

/-- C6 counterexample: two runs with sharply different sensitivity and
specificity produce identical reported totals, caught counts and detection
rates — the meta-evaluation result's single detection number conflates
error-case recall with clean-case rejection rather than reporting them
separately. -/
theorem C6_counterexample :
    (metaEvalAggregate overFlaggingRun).injected_errors_total =
        (metaEvalAggregate underFlaggingRun).injected_errors_total
    ∧ (metaEvalAggregate overFlaggingRun).injected_errors_caught =
        (metaEvalAggregate underFlaggingRun).injected_errors_caught
    ∧ (metaEvalAggregate overFlaggingRun).injected_error_detection_rate =
        (metaEvalAggregate underFlaggingRun).injected_error_detection_rate
    ∧ sensitivity overFlaggingRun = 1 ∧ specificity overFlaggingRun = 0
    ∧ sensitivity underFlaggingRun = 1/2 ∧ specificity underFlaggingRun = 1
    ∧ sensitivity overFlaggingRun ≠ sensitivity underFlaggingRun
    ∧ specificity overFlaggingRun ≠ specificity underFlaggingRun := by
  have hrate1 : (metaEvalAggregate overFlaggingRun).injected_error_detection_rate
      = 2/3 := by
    show (if overFlaggingRun.length = 0 then (0:ℚ)
      else (overFlaggingRun.countP (·.correctly_handled) : ℚ) /
        (overFlaggingRun.length : ℚ)) = 2/3
    rw [show overFlaggingRun.countP (·.correctly_handled) = 6 from by decide,
      show overFlaggingRun.length = 9 from by decide]
    norm_num
  have hrate2 : (metaEvalAggregate underFlaggingRun).injected_error_detection_rate
      = 2/3 := by
    show (if underFlaggingRun.length = 0 then (0:ℚ)
      else (underFlaggingRun.countP (·.correctly_handled) : ℚ) /
        (underFlaggingRun.length : ℚ)) = 2/3
    rw [show underFlaggingRun.countP (·.correctly_handled) = 6 from by decide,
      show underFlaggingRun.length = 9 from by decide]
    norm_num
  have hs1 : sensitivity overFlaggingRun = 1 := by
    rw [sensitivity, show errorCaseCount overFlaggingRun = 6 from by decide,
      show truePositiveCount overFlaggingRun = 6 from by decide]
    norm_num
  have hp1 : specificity overFlaggingRun = 0 := by
    rw [specificity, show cleanCaseCount overFlaggingRun = 3 from by decide,
      show trueNegativeCount overFlaggingRun = 0 from by decide]
    norm_num
  have hs2 : sensitivity underFlaggingRun = 1/2 := by
    rw [sensitivity, show errorCaseCount underFlaggingRun = 6 from by decide,
      show truePositiveCount underFlaggingRun = 3 from by decide]
    norm_num
  have hp2 : specificity underFlaggingRun = 1 := by
    rw [specificity, show cleanCaseCount underFlaggingRun = 3 from by decide,
      show trueNegativeCount underFlaggingRun = 3 from by decide]
    norm_num
  refine ⟨by decide, by decide, hrate1.trans hrate2.symm, hs1, hp1, hs2, hp2, ?_, ?_⟩
  · rw [hs1, hs2]; norm_num
  · rw [hp1, hp2]; norm_num

/-- Error/clean kinds partition the case list. -/
theorem kind_partition (cases : List MetaCaseOutcome) :
    errorCaseCount cases + cleanCaseCount cases = cases.length := by
  induction cases with
  | nil => simp [errorCaseCount, cleanCaseCount]
  | cons c cs ih =>
    simp only [errorCaseCount, cleanCaseCount, List.countP_cons,
      List.length_cons] at ih ⊢
    cases hck : c.kind <;> simp [hck] <;> omega

/-- Correctly handled cases split into true positives and true negatives. -/
theorem handled_partition (cases : List MetaCaseOutcome) :
    truePositiveCount cases + trueNegativeCount cases =
      cases.countP (·.correctly_handled) := by
  induction cases with
  | nil => simp [truePositiveCount, trueNegativeCount]
  | cons c cs ih =>
    simp only [truePositiveCount, trueNegativeCount, List.countP_cons] at ih ⊢
    cases hck : c.kind <;> cases hch : c.correctly_handled <;>
      simp [hck, hch] <;> omega

/-- C6 amended: the meta-evaluation result reports one conflated detection
aggregate — the total counts error cases and clean controls together, the
caught count adds true positives and true negatives, and the single derived
detection rate is their quotient; sensitivity and specificity are not
reported as separate quantities. -/
theorem C6_amended_single_conflated_detection_rate
    (cases : List MetaCaseOutcome) :
    (metaEvalAggregate cases).injected_errors_total =
        errorCaseCount cases + cleanCaseCount cases
    ∧ (metaEvalAggregate cases).injected_errors_caught =
        truePositiveCount cases + trueNegativeCount cases
    ∧ (metaEvalAggregate cases).injected_error_detection_rate =
        (if errorCaseCount cases + cleanCaseCount cases = 0 then 0
          else ((truePositiveCount cases + trueNegativeCount cases : ℕ) : ℚ) /
            ((errorCaseCount cases + cleanCaseCount cases : ℕ) : ℚ)) := by
  refine ⟨(kind_partition cases).symm, (handled_partition cases).symm, ?_⟩
  show (if cases.length = 0 then (0:ℚ)
      else (cases.countP (·.correctly_handled) : ℚ) / (cases.length : ℚ)) = _
  rw [kind_partition, handled_partition]

-- ── Orchestrator error handling (spec section 7) ──

/-- Per-note evaluation status distinguishing a missing judgment. -/
inductive NoteStatus where
  | ok
  | judgment_unavailable
deriving DecidableEq

/-- Per-note outcome record kept by the orchestrator: the deterministic
result is always present, the judgment only on success. -/
structure NoteOutcomeReport where
  note_id : String
  status : NoteStatus
  deterministic : DeterministicResult
  llm_judge : Option LLMJudgeResult
  quality_gate : QualityGateResult
deriving DecidableEq

def judgmentUnavailableReason : String :=
  "LLM judgment unavailable after retries: defaulting to REVIEW"

/-- Modelled from the spec: a note whose judgment-service call terminally
fails is marked with the distinct judgment_unavailable state, keeps its
deterministic result, and its gate defaults to REVIEW, never silently PASS
(spec section 7). -/
def evalNoteOutcome (id : String) (d : DeterministicResult)
    (jr : Except String LLMJudgeResult) : NoteOutcomeReport :=
  match jr with
  | Except.ok j => ⟨id, NoteStatus.ok, d, some j, qualityGate d j⟩
  | Except.error _ =>
      ⟨id, NoteStatus.judgment_unavailable, d, none,
        ⟨GateDecision.REVIEW, [judgmentUnavailableReason]⟩⟩

/-- Batch outcome: every note's report plus the explicit list of the notes
left in an error state. -/
structure BatchOutcome where
  reports : List NoteOutcomeReport
  error_note_ids : List String
deriving DecidableEq

/-- Modelled from the spec: the orchestrator evaluates every input note,
and the final batch outcome explicitly lists every note in an error state
rather than omitting it (spec section 7). -/
def runBatch
    (inputs : List (String × DeterministicResult × Except String LLMJudgeResult)) :
    BatchOutcome :=
  let reports := inputs.map (fun t => evalNoteOutcome t.1 t.2.1 t.2.2)
  ⟨reports,
    (reports.filter
      (fun r => r.status == NoteStatus.judgment_unavailable)).map (·.note_id)⟩

/-- C7: every note whose judgment call terminally failed appears in the
batch reports marked judgment_unavailable, with its deterministic result
retained, a gate decision of REVIEW (hence never PASS), and its id listed
among the batch's error notes. -/
theorem C7_judgment_unavailable_defaults_to_review
    (inputs : List (String × DeterministicResult × Except String LLMJudgeResult))
    (id : String) (d : DeterministicResult) (e : String)
    (hmem : (id, d, (Except.error e : Except String LLMJudgeResult)) ∈ inputs) :
    ∃ r ∈ (runBatch inputs).reports,
      r.note_id = id ∧ r.status = NoteStatus.judgment_unavailable
      ∧ r.deterministic = d
      ∧ r.llm_judge = none
      ∧ r.quality_gate.decision = GateDecision.REVIEW
      ∧ r.quality_gate.decision ≠ GateDecision.PASS
      ∧ r.note_id ∈ (runBatch inputs).error_note_ids := by
  simp only [runBatch]
  refine ⟨evalNoteOutcome id d (Except.error e),
    List.mem_map_of_mem _ hmem, rfl, rfl, rfl, rfl, rfl,
    by simp [evalNoteOutcome], ?_⟩
  exact List.mem_map_of_mem _
    (List.mem_filter.mpr ⟨List.mem_map_of_mem _ hmem, by simp [evalNoteOutcome]⟩)

/-- A two-note batch input whose first note's judgment call terminally
failed. -/
def sampleBatchInputs :
    List (String × DeterministicResult × Except String LLMJudgeResult) :=
  [("note-001", dHalfGrounded, Except.error "malformed response"),
    ("note-002", dPlanMissing, Except.ok jClean)]

theorem C7_judgment_unavailable_defaults_to_review_witness :
    (("note-001", dHalfGrounded,
        (Except.error "malformed response" : Except String LLMJudgeResult))
      ∈ sampleBatchInputs)
    ∧ (∃ r ∈ (runBatch sampleBatchInputs).reports,
        r.note_id = "note-001" ∧ r.status = NoteStatus.judgment_unavailable
        ∧ r.deterministic = dHalfGrounded
        ∧ r.llm_judge = none
        ∧ r.quality_gate.decision = GateDecision.REVIEW
        ∧ r.quality_gate.decision ≠ GateDecision.PASS
        ∧ r.note_id ∈ (runBatch sampleBatchInputs).error_note_ids) :=
  ⟨List.mem_cons_self _ _,
    C7_judgment_unavailable_defaults_to_review sampleBatchInputs "note-001"
      dHalfGrounded "malformed response" (List.mem_cons_self _ _)⟩

-- ── Batch report aggregation and serialization (spec sections 6 and 8) ──

/-- BatchReport, from `frontend/lib/utils.ts`; the string-keyed count
records are embedded as association lists. -/
structure BatchReport where
  total_notes : ℕ
  reports : List EvalReport
  meta_eval : Option MetaEvalResult
  avg_overall_score : ℚ
  gate_distribution : List (String × ℕ)
  total_hallucinations : ℕ
  total_omissions : ℕ
  most_common_hallucination_types : List (String × ℕ)
deriving DecidableEq

/-- Serialized name of a gate decision, as it appears in results.json. -/
def gateName : GateDecision → String
  | GateDecision.PASS => "PASS"
  | GateDecision.REVIEW => "REVIEW"
  | GateDecision.FAIL => "FAIL"

/-- Number of reports with the given gate decision. -/
def gateCount (reports : List EvalReport) (g : GateDecision) : ℕ :=
  reports.countP (·.quality_gate.decision == g)

/-- Modelled from the spec: the gate-decision histogram of the batch
results document (spec section 6). -/
def buildGateDistribution (reports : List EvalReport) : List (String × ℕ) :=
  [("PASS", gateCount reports GateDecision.PASS),
    ("REVIEW", gateCount reports GateDecision.REVIEW),
    ("FAIL", gateCount reports GateDecision.FAIL)]

/-- Serialized name of a hallucination type. -/
def typeName : HallucinationType → String
  | HallucinationType.fabrication => "fabrication"
  | HallucinationType.negation => "negation"
  | HallucinationType.contextual => "contextual"
  | HallucinationType.temporal => "temporal"

/-- Batch-wide count of hallucinations of the given type. -/
def typeCount (reports : List EvalReport) (t : HallucinationType) : ℕ :=
  (reports.map
    (fun r => r.llm_judge.hallucinations.countP (·.hallucination_type == t))).sum

/-- Modelled from the spec: the hallucination-type histogram of the batch
results document (spec section 6). -/
def buildTypeDistribution (reports : List EvalReport) : List (String × ℕ) :=
  [("fabrication", typeCount reports HallucinationType.fabrication),
    ("negation", typeCount reports HallucinationType.negation),
    ("contextual", typeCount reports HallucinationType.contextual),
    ("temporal", typeCount reports HallucinationType.temporal)]

/-- Modelled from the spec: the single aggregation step building the batch
results document after all notes settle (spec sections 5 and 6). -/
def buildBatchReport (reports : List EvalReport) (meta : Option MetaEvalResult) :
    BatchReport :=
  { total_notes := reports.length
    reports := reports
    meta_eval := meta
    avg_overall_score :=
      if reports.length = 0 then 0
      else (reports.map (·.overall_score)).sum / (reports.length : ℚ)
    gate_distribution := buildGateDistribution reports
    total_hallucinations := (reports.map (·.llm_judge.hallucinations.length)).sum
    total_omissions := (reports.map (·.llm_judge.omissions.length)).sum
    most_common_hallucination_types := buildTypeDistribution reports }

/-- Keyed count lookup with default 0, as the dashboard reads
`gate_distribution[gate] ?? 0`. -/
def lookupCount (m : List (String × ℕ)) (k : String) : ℕ :=
  match m.find? (fun p => p.1 == k) with
  | some p => p.2
  | none => 0

/-- A JSON-like value tree, the serialization target of results.json. -/
inductive JsonValue where
  | jnum (q : ℚ)
  | jstr (s : String)
  | jarr (items : List JsonValue)
  | jobj (fields : List (String × JsonValue))

/-- Serialize a count map to a JSON object. -/
def encodeCounts (m : List (String × ℕ)) : JsonValue :=
  JsonValue.jobj (m.map (fun p => (p.1, JsonValue.jnum (p.2 : ℚ))))

/-- Parse one JSON count value back to a natural number. -/
def decodeCount : JsonValue → Option ℕ
  | JsonValue.jnum q => if q.den = 1 ∧ 0 ≤ q.num then some q.num.toNat else none
  | _ => none

/-- Parse JSON object fields back to a count map. -/
def decodeEntries : List (String × JsonValue) → Option (List (String × ℕ))
  | [] => some []
  | p :: rest =>
    match decodeCount p.2, decodeEntries rest with
    | some n, some tail => some ((p.1, n) :: tail)
    | _, _ => none

/-- Parse a serialized count map. -/
def decodeCounts : JsonValue → Option (List (String × ℕ))
  | JsonValue.jobj fields => decodeEntries fields
  | _ => none

/-- Serialize the aggregate counts of a batch report. -/
def encodeBatchAggregates (b : BatchReport) : JsonValue :=
  JsonValue.jobj
    [("total_notes", JsonValue.jnum (b.total_notes : ℚ)),
      ("gate_distribution", encodeCounts b.gate_distribution)]

/-- Reload the aggregate counts of a serialized batch report. -/
def decodeBatchAggregates : JsonValue → Option (ℕ × List (String × ℕ))
  | JsonValue.jobj [("total_notes", tv), ("gate_distribution", gv)] =>
    match decodeCount tv, decodeCounts gv with
    | some t, some g => some (t, g)
    | _, _ => none
  | _ => none

/-- Count maps survive the serialization round trip unchanged. -/
theorem decodeCounts_encodeCounts (m : List (String × ℕ)) :
    decodeCounts (encodeCounts m) = some m := by
  rw [encodeCounts, decodeCounts]
  induction m with
  | nil => simp [decodeEntries]
  | cons p rest ih =>
    simp only [List.map_cons, decodeEntries, decodeCount]
    rw [ih]
    simp

/-- A serialized natural count decodes back to itself. -/
theorem decodeCount_natCast (n : ℕ) :
    decodeCount (JsonValue.jnum (n : ℚ)) = some n := by
  simp [decodeCount]

/-- The three gate buckets partition the reports. -/
theorem gateCount_partition (reports : List EvalReport) :
    gateCount reports GateDecision.PASS + gateCount reports GateDecision.REVIEW
      + gateCount reports GateDecision.FAIL = reports.length := by
  induction reports with
  | nil => simp [gateCount]
  | cons r rs ih =>
    simp only [gateCount, List.countP_cons, List.length_cons] at ih ⊢
    cases hg : r.quality_gate.decision <;> simp [hg] <;> omega

/-- C8: in every built batch report the gate-distribution counts for PASS,
REVIEW and FAIL sum to the total number of notes, and serializing the batch
aggregates and reloading them reproduces the identical total and gate
distribution, so the reloaded counts still sum to the total. -/
theorem C8_gate_distribution_sum_and_round_trip
    (reports : List EvalReport) (meta : Option MetaEvalResult) :
    (lookupCount (buildBatchReport reports meta).gate_distribution "PASS"
      + lookupCount (buildBatchReport reports meta).gate_distribution "REVIEW"
      + lookupCount (buildBatchReport reports meta).gate_distribution "FAIL"
      = (buildBatchReport reports meta).total_notes)
    ∧ (decodeBatchAggregates (encodeBatchAggregates (buildBatchReport reports meta))
        = some ((buildBatchReport reports meta).total_notes,
            (buildBatchReport reports meta).gate_distribution)) := by
  constructor
  · show lookupCount (buildGateDistribution reports) "PASS"
      + lookupCount (buildGateDistribution reports) "REVIEW"
      + lookupCount (buildGateDistribution reports) "FAIL" = reports.length
    have hP : lookupCount (buildGateDistribution reports) "PASS"
        = gateCount reports GateDecision.PASS := by
      simp [lookupCount, buildGateDistribution, List.find?]
    have hR : lookupCount (buildGateDistribution reports) "REVIEW"
        = gateCount reports GateDecision.REVIEW := by
      simp [lookupCount, buildGateDistribution, List.find?]
    have hF : lookupCount (buildGateDistribution reports) "FAIL"
        = gateCount reports GateDecision.FAIL := by
      simp [lookupCount, buildGateDistribution, List.find?]
    rw [hP, hR, hF, gateCount_partition]
  · show decodeBatchAggregates (JsonValue.jobj
        [("total_notes", JsonValue.jnum ((buildBatchReport reports meta).total_notes : ℚ)),
          ("gate_distribution", encodeCounts (buildBatchReport reports meta).gate_distribution)])
      = _
    rw [decodeBatchAggregates]
    rw [decodeCount_natCast, decodeCounts_encodeCounts]

-- ── Note Explorer action items (NoteExplorer.tsx, ActionItemsTab) ──

/-- Action kinds of the Action Items checklist. -/
inductive ActionKind where
  | Remove
  | Revise
  | Add
deriving DecidableEq

/-- SEVERITY_ORDER from NoteExplorer: critical 0, major 1, minor 2. -/
def SEVERITY_ORDER : Severity → ℕ
  | Severity.critical => 0
  | Severity.major => 1
  | Severity.minor => 2

/-- ActionItem, from NoteExplorer; the source's optional `section` field is
embedded as `section_name`. -/
structure ActionItem where
  action : ActionKind
  severity : Severity
  target : String
  reason : String
  section_name : Option String
deriving DecidableEq

/-- The action item ActionItemsTab builds from one hallucination: Remove
for a fabrication, Revise otherwise. -/
def hallucinationActionItem (h : Hallucination) : ActionItem :=
  { action :=
      if h.hallucination_type == HallucinationType.fabrication then
        ActionKind.Remove
      else ActionKind.Revise
    severity := h.severity
    target := h.note_text
    reason := h.explanation
    section_name := none }

/-- The action item ActionItemsTab builds from one omission: always Add. -/
def omissionActionItem (o : Omission) : ActionItem :=
  { action := ActionKind.Add
    severity := o.clinical_importance
    target := o.transcript_text
    reason := o.explanation
    section_name := some o.expected_section }

/-- The pre-sort action-item list of ActionItemsTab: one Remove/Revise item
per hallucination, then one Add item per omission. -/
def buildActionItems (r : EvalReport) : List ActionItem :=
  r.llm_judge.hallucinations.map hallucinationActionItem
    ++ r.llm_judge.omissions.map omissionActionItem

/-- The severity comparator of ActionItemsTab's sort call. -/
def actionItemLe (a b : ActionItem) : Bool :=
  decide (SEVERITY_ORDER a.severity ≤ SEVERITY_ORDER b.severity)

/-- The sorted action-item list rendered by ActionItemsTab (the JS stable
sort by severity rank is modelled by a stable merge sort). -/
def sortedActionItems (r : EvalReport) : List ActionItem :=
  (buildActionItems r).mergeSort actionItemLe

/-- The sorted action items are a permutation of the built ones. -/
theorem sortedActionItems_perm (r : EvalReport) :
    (sortedActionItems r).Perm (buildActionItems r) :=
  List.mergeSort_perm (buildActionItems r) actionItemLe

/-- Hallucination items counted as Remove are exactly the fabrications. -/
theorem countP_hallucinationItems_remove (hs : List Hallucination) :
    (hs.map hallucinationActionItem).countP (·.action == ActionKind.Remove) =
      hs.countP (·.hallucination_type == HallucinationType.fabrication) := by
  induction hs with
  | nil => simp
  | cons h t ih =>
    cases hb : h.hallucination_type == HallucinationType.fabrication <;>
      simp [hallucinationActionItem, List.countP_cons, hb, ih]

/-- Hallucination items counted as Revise are exactly the non-fabrications. -/
theorem countP_hallucinationItems_revise (hs : List Hallucination) :
    (hs.map hallucinationActionItem).countP (·.action == ActionKind.Revise) =
      hs.countP (fun h => !(h.hallucination_type == HallucinationType.fabrication)) := by
  induction hs with
  | nil => simp
  | cons h t ih =>
    cases hb : h.hallucination_type == HallucinationType.fabrication <;>
      simp [hallucinationActionItem, List.countP_cons, hb, ih]

/-- No hallucination item is an Add action. -/
theorem countP_hallucinationItems_add (hs : List Hallucination) :
    (hs.map hallucinationActionItem).countP (·.action == ActionKind.Add) = 0 := by
  induction hs with
  | nil => simp
  | cons h t ih =>
    cases hb : h.hallucination_type == HallucinationType.fabrication <;>
      simp [hallucinationActionItem, List.countP_cons, hb, ih]

/-- Every omission item is an Add action. -/
theorem countP_omissionItems_add (os : List Omission) :
    (os.map omissionActionItem).countP (·.action == ActionKind.Add) = os.length := by
  induction os with
  | nil => simp
  | cons o t ih => simp [omissionActionItem, List.countP_cons, ih]

/-- No omission item is a Remove action. -/
theorem countP_omissionItems_remove (os : List Omission) :
    (os.map omissionActionItem).countP (·.action == ActionKind.Remove) = 0 := by
  induction os with
  | nil => simp
  | cons o t ih => simp [omissionActionItem, List.countP_cons, ih]

/-- No omission item is a Revise action. -/
theorem countP_omissionItems_revise (os : List Omission) :
    (os.map omissionActionItem).countP (·.action == ActionKind.Revise) = 0 := by
  induction os with
  | nil => simp
  | cons o t ih => simp [omissionActionItem, List.countP_cons, ih]

/-- C9: the Action Items list has exactly one item per hallucination —
Remove exactly for fabrications, Revise otherwise — and one Add item per
omission, so its length is the hallucination count plus the omission count;
after sorting, severity ranks are pairwise nondecreasing, so every critical
item precedes every major item, which precedes every minor item. -/
theorem C9_action_items_content_and_order (r : EvalReport) :
    (sortedActionItems r).length =
        r.llm_judge.hallucinations.length + r.llm_judge.omissions.length
    ∧ (sortedActionItems r).countP (·.action == ActionKind.Remove) =
        r.llm_judge.hallucinations.countP
          (·.hallucination_type == HallucinationType.fabrication)
    ∧ (sortedActionItems r).countP (·.action == ActionKind.Revise) =
        r.llm_judge.hallucinations.countP
          (fun h => !(h.hallucination_type == HallucinationType.fabrication))
    ∧ (sortedActionItems r).countP (·.action == ActionKind.Add) =
        r.llm_judge.omissions.length
    ∧ (sortedActionItems r).Pairwise
        (fun a b => SEVERITY_ORDER a.severity ≤ SEVERITY_ORDER b.severity) := by
  have hperm := sortedActionItems_perm r
  refine ⟨?_, ?_, ?_, ?_, ?_⟩
  · rw [hperm.length_eq, buildActionItems, List.length_append, List.length_map,
      List.length_map]
  · rw [List.Perm.countP_eq _ hperm, buildActionItems, List.countP_append,
      countP_hallucinationItems_remove, countP_omissionItems_remove]
    omega
  · rw [List.Perm.countP_eq _ hperm, buildActionItems, List.countP_append,
      countP_hallucinationItems_revise, countP_omissionItems_revise]
    omega
  · rw [List.Perm.countP_eq _ hperm, buildActionItems, List.countP_append,
      countP_hallucinationItems_add, countP_omissionItems_add]
    omega
  · have htrans : ∀ a b c : ActionItem,
        actionItemLe a b = true → actionItemLe b c = true →
          actionItemLe a c = true := by
      intro a b c hab hbc
      simp only [actionItemLe, decide_eq_true_eq] at hab hbc ⊢
      exact le_trans hab hbc
    have htotal : ∀ a b : ActionItem,
        (actionItemLe a b || actionItemLe b a) = true := by
      intro a b
      simp only [actionItemLe, Bool.or_eq_true, decide_eq_true_eq]
      exact Nat.le_total _ _
    have := List.sorted_mergeSort htrans htotal (buildActionItems r)
    exact this.imp (fun h => by simpa [actionItemLe] using h)

-- ── Text sanitization (frontend/lib/utils.ts, sanitizeText) ──

/-- Leading character of every mojibake pattern: U+00C3. -/
def mojibakeLead : Char := Char.ofNat 195

/-- Second character of the first pattern: U+2014 em dash. -/
def secondEmDash : Char := Char.ofNat 8212

/-- Second character of the second pattern: U+00A9. -/
def secondCopyright : Char := Char.ofNat 169

/-- Second character of the third pattern: U+00A8. -/
def secondDiaeresis : Char := Char.ofNat 168

/-- Second character of the fourth pattern: U+00BC. -/
def secondQuarter : Char := Char.ofNat 188

/-- Second character of the fifth pattern: U+00B6. -/
def secondPilcrow : Char := Char.ofNat 182

/-- Second character of the sixth pattern: U+00A4. -/
def secondCurrency : Char := Char.ofNat 164

/-- Replacement of the first pattern: U+00D7 multiplication sign. -/
def repTimes : Char := Char.ofNat 215

/-- Replacement of the second pattern: U+00E9. -/
def repEAcute : Char := Char.ofNat 233

/-- Replacement of the third pattern: U+00E8. -/
def repEGrave : Char := Char.ofNat 232

/-- Replacement of the fourth pattern: U+00FC. -/
def repUUmlaut : Char := Char.ofNat 252

/-- Replacement of the fifth pattern: U+00F6. -/
def repOUmlaut : Char := Char.ofNat 246

/-- Replacement of the sixth pattern: U+00E4. -/
def repAUmlaut : Char := Char.ofNat 228

/-- Global left-to-right replacement of the adjacent character pair (a, b)
by the single character rep, modelling a JavaScript global regex replace of
a fixed two-character pattern. -/
def replacePair (a b rep : Char) : List Char → List Char
  | [] => []
  | [x] => [x]
  | x :: y :: rest =>
    if x = a ∧ y = b then rep :: replacePair a b rep rest
    else x :: replacePair a b rep (y :: rest)

/-- Whether the adjacent pair (a, b) occurs somewhere in the list. -/
def hasPair (a b : Char) : List Char → Bool
  | x :: y :: rest => (decide (x = a) && decide (y = b)) || hasPair a b (y :: rest)
  | _ => false

/-- The character-level sanitizer: the six mojibake replacements of
sanitizeText applied in source order. -/
def sanitizeChars (l : List Char) : List Char :=
  replacePair mojibakeLead secondCurrency repAUmlaut
    (replacePair mojibakeLead secondPilcrow repOUmlaut
      (replacePair mojibakeLead secondQuarter repUUmlaut
        (replacePair mojibakeLead secondDiaeresis repEGrave
          (replacePair mojibakeLead secondCopyright repEAcute
            (replacePair mojibakeLead secondEmDash repTimes l)))))

/-- sanitizeText, from `frontend/lib/utils.ts`: fixes UTF-8 mojibake from
the source dataset. -/
def sanitizeText (s : String) : String := String.mk (sanitizeChars s.data)

/-- Two-step list induction matching the recursion of replacePair. -/
theorem twoStepInduction {P : List Char → Prop}
    (h0 : P []) (h1 : ∀ x, P [x])
    (h2 : ∀ x y rest, P rest → P (y :: rest) → P (x :: y :: rest)) :
    ∀ l, P l := by
  have key : ∀ n (l : List Char), l.length ≤ n → P l := by
    intro n
    induction n with
    | zero =>
      intro l hl
      rw [List.eq_nil_of_length_eq_zero (Nat.le_zero.mp hl)]
      exact h0
    | succ n ih =>
      intro l hl
      match l with
      | [] => exact h0
      | [x] => exact h1 x
      | x :: y :: rest =>
        simp only [List.length_cons] at hl
        exact h2 x y rest (ih rest (by omega)) (ih (y :: rest) (by simp; omega))
  intro l
  exact key l.length l le_rfl

/-- A pair occurrence in the tail is a pair occurrence. -/
theorem hasPair_tail (a b x : Char) (m : List Char)
    (h : hasPair a b (x :: m) = false) : hasPair a b m = false := by
  match m with
  | [] => rfl
  | y :: w =>
    simp only [hasPair, Bool.or_eq_false_iff] at h
    exact h.2

/-- The head of a replacement result on a nonempty list is either the
replacement character or the original head. -/
theorem head_replacePair (a b rep y : Char) (rest : List Char) :
    ∃ t, replacePair a b rep (y :: rest) = rep :: t
      ∨ replacePair a b rep (y :: rest) = y :: t := by
  match rest with
  | [] => exact ⟨[], Or.inr rfl⟩
  | z :: w =>
    by_cases h : y = a ∧ z = b
    · exact ⟨replacePair a b rep w, Or.inl (by rw [replacePair, if_pos h])⟩
    · exact ⟨replacePair a b rep (z :: w), Or.inr (by rw [replacePair, if_neg h])⟩

/-- After replacing the pair (a, b) by a character that can restart neither
side of the pattern, no occurrence of (a, b) remains. -/
theorem hasPair_replacePair_self (a b rep : Char)
    (hra : rep ≠ a) (hrb : rep ≠ b) :
    ∀ l, hasPair a b (replacePair a b rep l) = false := by
  refine twoStepInduction rfl (fun x => rfl) ?_
  intro x y rest ih1 ih2
  by_cases h : x = a ∧ y = b
  · rw [replacePair, if_pos h]
    cases hout : replacePair a b rep rest with
    | nil => rfl
    | cons z w =>
      rw [hout] at ih1
      simp only [hasPair, Bool.or_eq_false_iff, Bool.and_eq_false_iff]
      exact ⟨Or.inl (decide_eq_false hra), ih1⟩
  · rw [replacePair, if_neg h]
    obtain ⟨t, hc | hc⟩ := head_replacePair a b rep y rest
    · rw [hc] at ih2 ⊢
      simp only [hasPair, Bool.or_eq_false_iff, Bool.and_eq_false_iff]
      exact ⟨Or.inr (decide_eq_false hrb), ih2⟩
    · rw [hc] at ih2 ⊢
      simp only [hasPair, Bool.or_eq_false_iff, Bool.and_eq_false_iff]
      refine ⟨?_, ih2⟩
      rcases Decidable.em (x = a) with hx | hx
      · exact Or.inr (decide_eq_false (fun hyb => h ⟨hx, hyb⟩))
      · exact Or.inl (decide_eq_false hx)

/-- Replacement is the identity on text containing no occurrence of the
pattern. -/
theorem replacePair_of_not_hasPair (a b rep : Char) :
    ∀ l, hasPair a b l = false → replacePair a b rep l = l := by
  refine twoStepInduction (fun _ => rfl) (fun x _ => rfl) ?_
  intro x y rest _ ih2 hcl
  have hcl' : (¬(x = a) ∨ ¬(y = b)) ∧ hasPair a b (y :: rest) = false := by
    simpa only [hasPair, Bool.or_eq_false_iff, Bool.and_eq_false_iff,
      decide_eq_false_iff_not] using hcl
  rw [replacePair, if_neg (by tauto), ih2 hcl'.2]

/-- Replacing a different pattern whose replacement character can restart
neither side of the pair (a, b) cannot create an occurrence of (a, b). -/
theorem hasPair_replacePair_other (a b a' b' rep' : Char)
    (hra : rep' ≠ a) (hrb : rep' ≠ b) :
    ∀ l, hasPair a b l = false →
      hasPair a b (replacePair a' b' rep' l) = false := by
  refine twoStepInduction (fun _ => rfl) (fun x _ => rfl) ?_
  intro x y rest ih1 ih2 hcl
  have hcl' : (¬(x = a) ∨ ¬(y = b)) ∧ hasPair a b (y :: rest) = false := by
    simpa only [hasPair, Bool.or_eq_false_iff, Bool.and_eq_false_iff,
      decide_eq_false_iff_not] using hcl
  by_cases h : x = a' ∧ y = b'
  · rw [replacePair, if_pos h]
    have ihr := ih1 (hasPair_tail a b y rest hcl'.2)
    cases hout : replacePair a' b' rep' rest with
    | nil => rfl
    | cons z w =>
      rw [hout] at ihr
      simp only [hasPair, Bool.or_eq_false_iff, Bool.and_eq_false_iff]
      exact ⟨Or.inl (decide_eq_false hra), ihr⟩
  · rw [replacePair, if_neg h]
    have ihr := ih2 hcl'.2
    obtain ⟨t, hc | hc⟩ := head_replacePair a' b' rep' y rest
    · rw [hc] at ihr ⊢
      simp only [hasPair, Bool.or_eq_false_iff, Bool.and_eq_false_iff]
      exact ⟨Or.inr (decide_eq_false hrb), ihr⟩
    · rw [hc] at ihr ⊢
      simp only [hasPair, Bool.or_eq_false_iff, Bool.and_eq_false_iff]
      refine ⟨?_, ihr⟩
      rcases hcl'.1 with hx | hy
      · exact Or.inl (decide_eq_false hx)
      · exact Or.inr (decide_eq_false hy)

/-- After sanitization no occurrence of any of the six mojibake patterns
remains: each replacement output is neither the pattern lead nor any second
character, so replacements cannot combine with remaining text into a
pattern. -/
theorem sanitizeChars_clean (l : List Char) :
    hasPair mojibakeLead secondEmDash (sanitizeChars l) = false
    ∧ hasPair mojibakeLead secondCopyright (sanitizeChars l) = false
    ∧ hasPair mojibakeLead secondDiaeresis (sanitizeChars l) = false
    ∧ hasPair mojibakeLead secondQuarter (sanitizeChars l) = false
    ∧ hasPair mojibakeLead secondPilcrow (sanitizeChars l) = false
    ∧ hasPair mojibakeLead secondCurrency (sanitizeChars l) = false := by
  rw [sanitizeChars]
  refine ⟨?_, ?_, ?_, ?_, ?_, ?_⟩
  · apply hasPair_replacePair_other _ _ _ _ _ (by decide) (by decide)
    apply hasPair_replacePair_other _ _ _ _ _ (by decide) (by decide)
    apply hasPair_replacePair_other _ _ _ _ _ (by decide) (by decide)
    apply hasPair_replacePair_other _ _ _ _ _ (by decide) (by decide)
    apply hasPair_replacePair_other _ _ _ _ _ (by decide) (by decide)
    exact hasPair_replacePair_self _ _ _ (by decide) (by decide) l
  · apply hasPair_replacePair_other _ _ _ _ _ (by decide) (by decide)
    apply hasPair_replacePair_other _ _ _ _ _ (by decide) (by decide)
    apply hasPair_replacePair_other _ _ _ _ _ (by decide) (by decide)
    apply hasPair_replacePair_other _ _ _ _ _ (by decide) (by decide)
    exact hasPair_replacePair_self _ _ _ (by decide) (by decide) _
  · apply hasPair_replacePair_other _ _ _ _ _ (by decide) (by decide)
    apply hasPair_replacePair_other _ _ _ _ _ (by decide) (by decide)
    apply hasPair_replacePair_other _ _ _ _ _ (by decide) (by decide)
    exact hasPair_replacePair_self _ _ _ (by decide) (by decide) _
  · apply hasPair_replacePair_other _ _ _ _ _ (by decide) (by decide)
    apply hasPair_replacePair_other _ _ _ _ _ (by decide) (by decide)
    exact hasPair_replacePair_self _ _ _ (by decide) (by decide) _
  · apply hasPair_replacePair_other _ _ _ _ _ (by decide) (by decide)
    exact hasPair_replacePair_self _ _ _ (by decide) (by decide) _
  · exact hasPair_replacePair_self _ _ _ (by decide) (by decide) _

/-- Sanitizing twice equals sanitizing once, at the character level. -/
theorem sanitizeChars_idempotent (l : List Char) :
    sanitizeChars (sanitizeChars l) = sanitizeChars l := by
  obtain ⟨h1, h2, h3, h4, h5, h6⟩ := sanitizeChars_clean l
  conv_lhs => rw [sanitizeChars]
  rw [replacePair_of_not_hasPair _ _ _ _ h1,
    replacePair_of_not_hasPair _ _ _ _ h2,
    replacePair_of_not_hasPair _ _ _ _ h3,
    replacePair_of_not_hasPair _ _ _ _ h4,
    replacePair_of_not_hasPair _ _ _ _ h5,
    replacePair_of_not_hasPair _ _ _ _ h6]

/-- C10: sanitizeText is idempotent — sanitizing an already sanitized
string changes nothing, because no replacement output can combine with the
remaining text into one of the six mojibake patterns. -/
theorem C10_sanitizeText_idempotent (s : String) :
    sanitizeText (sanitizeText s) = sanitizeText s :=
  congrArg String.mk (sanitizeChars_idempotent s.data)

end DocuScore
